import Mathlib

/-!
Shallow embedding of the alloy managed-pointer subsystem:
the finalization decision engine and managed box of
`library/alloc/src/gc.rs`, and the Boehm backend adapter of
`library/boehm/src/lib.rs`.
-/

/-- A model of the concrete Rust types the finalization decision engine is
queried at.  `prim` stands for any type without drop glue (`u8`, `usize`,
raw pointers); `dropTy b` for a base struct with its own `Drop` impl, where
`b` records whether it opted out of finalization; `strTy` for `String`;
`vecTy`, `boxTy`, `pairTy` for `Vec<T>`, `Box<T>` and 2-tuples; and
`maybeUninitTy t` for `MaybeUninit<T>`, which never has drop glue. -/
inductive RTy where
  | prim : RTy
  | dropTy (noFinalize : Bool) : RTy
  | strTy : RTy
  | vecTy (t : RTy) : RTy
  | boxTy (t : RTy) : RTy
  | pairTy (a b : RTy) : RTy
  | maybeUninitTy (t : RTy) : RTy
  deriving DecidableEq, Repr

/-- The model `u8` type of the test fixture `needs_finalize.rs`. -/
def u8Ty : RTy := RTy.prim

/-- The `HasDrop` struct of the test fixture: a `Drop` impl, no opt-out. -/
def hasDropTy : RTy := RTy.dropTy false

/-- The `HasDropNoFinalize` struct of the test fixture. -/
def hasDropNoFinalizeTy : RTy := RTy.dropTy true

/-- Rust drop glue (`core::mem::needs_drop`): `Vec`, `Box` and `String` always
have drop glue (their own `Drop` impls), a pair has drop glue when either
component does, and `MaybeUninit<T>` never has drop glue. -/
def needs_drop : RTy → Bool
  | RTy.prim => false
  | RTy.dropTy _ => true
  | RTy.strTy => true
  | RTy.vecTy _ => true
  | RTy.boxTy _ => true
  | RTy.pairTy a b => needs_drop a || needs_drop b
  | RTy.maybeUninitTy _ => false

/-- Modelled from the spec: membership of the `ManageableContents` marker
trait of `library/core/src/gc.rs`.  The trait impls themselves are not under
src/; the spec requires the set to contain exactly those types where bulk
reclamation is equivalent to running each element destructor, which the test
fixture `needs_finalize.rs` pins down: trivial types, opted-out `Drop` types,
`String`, and containers of such types. -/
def manageable_contents : RTy → Bool
  | RTy.prim => true
  | RTy.dropTy noFinalize => noFinalize
  | RTy.strTy => true
  | RTy.vecTy t => manageable_contents t
  | RTy.boxTy t => manageable_contents t
  | RTy.pairTy a b => manageable_contents a && manageable_contents b
  | RTy.maybeUninitTy _ => true

/-- `IsManageableContents` for `GcBox` (gc.rs lines 184-198): the default
impl answers `false`; the specialization for `GcBox<Vec<T>>` with
`T: ManageableContents` answers `true`. -/
def is_manageable_contents : RTy → Bool
  | RTy.vecTy t => manageable_contents t
  | _ => false

/-- `NeedsDrop` for `GcBox` (gc.rs lines 200-214): the default impl answers
`mem::needs_drop::<T>()`; the specialization for `GcBox<Vec<T>>` answers
`mem::needs_drop::<T>()` for the element type instead. -/
def gcbox_needs_drop : RTy → Bool
  | RTy.vecTy t => needs_drop t
  | t => needs_drop t

/-- The registration condition inside `GcBox::new` (gc.rs line 149):
`!Self::is_manageable_contents() && Self::needs_drop()`. -/
def gcbox_new_registers (t : RTy) : Bool :=
  !is_manageable_contents t && gcbox_needs_drop t

/-- Modelled from the spec: the compiler intrinsic `mem::needs_finalizer`
(its implementation is compiler code not under src/), which the spec defines
as `requires_destructor(T) AND NOT manageable_without_finalizer(T)` and whose
expected values the test fixture `needs_finalize.rs` records. -/
def needs_finalizer (t : RTy) : Bool :=
  needs_drop t && !manageable_contents t

/-- State of one managed box: the type of its contents and the list of live
finalizer registrations, each recorded as the type whose drop glue the
registered callback runs (`fshim::<T>` drops a `ManuallyDrop<T>`). -/
structure GcBoxSt where
  contentTy : RTy
  regs : List RTy
  deriving DecidableEq, Repr

/-- Modelled from the spec: the backend registration call
(`GC_register_finalizer_no_order`, not under src/) installs the new callback
for the object and hands back any previous one, so it replaces rather than
adds: afterwards the object carries exactly the one new registration. -/
def backend_register_finalizer (regs : List RTy) (a : RTy) : List RTy :=
  match regs with
  | _ => [a]

/-- `GcBox::new` (gc.rs lines 142-156): allocates, moves the value in, and
registers `fshim::<T>` exactly when the registration condition holds. -/
def GcBox.newSt (t : RTy) : GcBoxSt :=
  { contentTy := t,
    regs := if gcbox_new_registers t then backend_register_finalizer [] t else [] }

/-- `GcBox::new_from_layout` (gc.rs lines 158-163): allocates raw storage for
a `GcBox<MaybeUninit<T>>` and registers nothing. -/
def GcBox.newFromLayoutSt (t : RTy) : GcBoxSt :=
  { contentTy := RTy.maybeUninitTy t, regs := [] }

/-- `GcBox::<MaybeUninit<T>>::assume_init` (gc.rs lines 216-224): calls
`self.register_finalizer()` unconditionally; since `Self` there is
`GcBox<MaybeUninit<T>>`, the registered `fshim` drops a
`ManuallyDrop<MaybeUninit<T>>`. -/
def GcBox.assumeInitSt (st : GcBoxSt) : GcBoxSt :=
  match st.contentTy with
  | RTy.maybeUninitTy t =>
      { contentTy := t,
        regs := backend_register_finalizer st.regs (RTy.maybeUninitTy t) }
  | _ => st

/-- The public operations that can touch an existing box: copying a handle
(`Clone for Gc<T>`, gc.rs lines 230-234, which only copies the word-sized
handle) and the deferred-initialization upgrade. -/
inductive PubOp where
  | cloneH : PubOp
  | assumeInitOp : PubOp
  deriving DecidableEq, Repr

/-- Effect of one public operation on the box state. -/
def applyOp (st : GcBoxSt) : PubOp → GcBoxSt
  | PubOp.cloneH => st
  | PubOp.assumeInitOp => GcBox.assumeInitSt st

/-- Effect of a sequence of public operations on the box state. -/
def applyOps (st : GcBoxSt) : List PubOp → GcBoxSt
  | [] => st
  | op :: ops => applyOps (applyOp st op) ops

/-- A typed managed handle `Gc<T>`: one machine word, the box address. -/
structure GcPtr where
  addr : Nat
  deriving DecidableEq, Repr

/-- An opaque `Gc<dyn Any>` handle: the box address together with the runtime
type of the referent, which `Any::is::<T>` inspects. -/
structure GcDynPtr where
  addr : Nat
  tag : RTy
  deriving DecidableEq, Repr

/-- `Gc::ptr_eq` (gc.rs lines 107-110): address comparison. -/
def Gc.ptr_eq (a b : GcPtr) : Bool :=
  a.addr == b.addr

/-- `Gc::into_raw` (gc.rs lines 103-105): the `GcBox` pointer cast to a
pointer to `T`; the cast keeps the address. -/
def Gc.into_raw (g : GcPtr) : Nat :=
  g.addr

/-- `Gc::from_raw` (gc.rs lines 112-115): rebuilds the handle from the raw
address. -/
def Gc.from_raw (a : Nat) : GcPtr :=
  { addr := a }

/-- `Clone for Gc<T>` (gc.rs lines 230-234): `*self`, a bitwise copy. -/
def Gc.clone (g : GcPtr) : GcPtr :=
  g

/-- `Gc::<dyn Any>::downcast` (gc.rs lines 88-98): if the referent is a `T`,
`Ok` of the same pointer cast to `GcBox<T>`; otherwise `Err` of a handle
built from the same pointer. -/
def Gc.downcast (g : GcDynPtr) (t : RTy) : Except GcDynPtr GcPtr :=
  if g.tag = t then Except.ok { addr := g.addr } else Except.error g

/-- A Rust `Layout`: size and alignment in bytes. -/
structure RLayout where
  size : Nat
  align : Nat
  deriving DecidableEq, Repr

/-- One machine word (`size_of::<usize>()` on the 64-bit targets alloy
builds for). -/
def machineWordBytes : Nat := 8

/-- The address arithmetic of `GcBox::new_from_layout` (gc.rs lines 158-163):
the backend block base, viewed as `*mut usize`, advanced by `.add(1)`. -/
def GcBox.new_from_layout_addr (base : Nat) : Nat :=
  base + machineWordBytes

/-- `Gc::new_from_layout` (gc.rs lines 60-71): panics (modelled as
`Except.error ()`) when the requested layout is smaller or less aligned than
`Layout::new::<T>()` (the parameter `tl`); otherwise delegates to
`GcBox::new_from_layout` on the block allocated at `base`. -/
def Gc.new_from_layout (tl l : RLayout) (base : Nat) : Except Unit Nat :=
  if l.size < tl.size ∨ l.align < tl.align then Except.error ()
  else Except.ok (GcBox.new_from_layout_addr base)

/-- Whether a `Gc::new_from_layout` run ended in the panic branch. -/
def panicked : Except Unit Nat → Bool
  | Except.error _ => true
  | Except.ok _ => false

/-- The Boehm C entry points the backend adapter of
`library/boehm/src/lib.rs` can forward an allocation request to. -/
inductive BackendAllocFn where
  | gcMalloc : BackendAllocFn
  | gcMallocUncollectable : BackendAllocFn
  | gcMallocAtomic : BackendAllocFn
  | gcMallocAtomicUncollectable : BackendAllocFn
  deriving DecidableEq, Repr

/-- `GlobalAlloc::alloc_conservative` (boehm lib.rs lines 40-43):
`GC_malloc_uncollectable(layout.size())`. -/
def GlobalAlloc.alloc_conservative (l : RLayout) : BackendAllocFn × Nat :=
  (BackendAllocFn.gcMallocUncollectable, l.size)

/-- `Allocator::alloc_conservative` (boehm lib.rs lines 72-79):
`GC_malloc(layout.size())`. -/
def Allocator.alloc_conservative (l : RLayout) : BackendAllocFn × Nat :=
  (BackendAllocFn.gcMalloc, l.size)

/-- Modelled from the spec: which backend entry points hand out blocks the
collector reclaims automatically when unreachable.  The uncollectable entry
points never do; the caller must free those blocks explicitly. -/
def auto_reclaimed : BackendAllocFn → Bool
  | BackendAllocFn.gcMalloc => true
  | BackendAllocFn.gcMallocAtomic => true
  | BackendAllocFn.gcMallocUncollectable => false
  | BackendAllocFn.gcMallocAtomicUncollectable => false

/-- A type outside the `ManageableContents` set always has drop glue: the
set contains every type whose reclamation needs no destructor work at all. -/
theorem manageable_or_needs_drop (t : RTy) :
    (manageable_contents t || needs_drop t) = true := by
  induction t with
  | prim => rfl
  | dropTy b => cases b <;> rfl
  | strTy => rfl
  | vecTy t ih => simp [manageable_contents, needs_drop]
  | boxTy t ih => simp [manageable_contents, needs_drop]
  | pairTy a b iha ihb =>
      simp only [manageable_contents, needs_drop]
      cases ha : manageable_contents a <;> cases hb : manageable_contents b <;>
        simp_all
  | maybeUninitTy t ih => rfl

/-- Contrapositive form of `manageable_or_needs_drop`. -/
theorem not_manageable_needs_drop (t : RTy)
    (h : manageable_contents t = false) : needs_drop t = true := by
  have hd := manageable_or_needs_drop t
  rw [h] at hd
  simpa using hd

/-- C1: `GcBox::new` registers a finalizer for the new box if and only if
the content type has drop glue and is not an explicitly recognized
manageable container shape, i.e. exactly when
`requires_destructor(T) AND NOT manageable_without_finalizer(T)` holds. -/
theorem gcbox_new_registers_iff (t : RTy) :
    gcbox_new_registers t = (needs_drop t && !is_manageable_contents t) := by
  cases t with
  | vecTy u =>
      simp only [gcbox_new_registers, is_manageable_contents, gcbox_needs_drop,
        needs_drop]
      cases hm : manageable_contents u
      · simp [not_manageable_needs_drop u hm]
      · simp
  | prim => rfl
  | dropTy b => rfl
  | strTy => rfl
  | boxTy u => rfl
  | pairTy a b =>
      simp [gcbox_new_registers, is_manageable_contents, gcbox_needs_drop]
  | maybeUninitTy u => rfl

/-- C1 extra evidence: the registration state `GcBox::new` actually produces
agrees with the decision, on every type. -/
theorem gcbox_newSt_regs (t : RTy) :
    (GcBox.newSt t).regs = (if gcbox_new_registers t then [t] else []) := by
  cases h : gcbox_new_registers t <;>
    simp [GcBox.newSt, h, backend_register_finalizer]

/-- C2: the finalization decision for a dynamically-sized sequence equals
the decision for its element, `needs_finalizer (Vec T) = needs_finalizer T`,
and in particular: sequence of trivial type is `false`, sequence of a
destructor-bearing type is `true`, nested sequence of sequence of a
destructor-bearing type is `true`, sequence of boxed destructor-bearing
type is `true`. -/
theorem needs_finalizer_vec (t : RTy) :
    needs_finalizer (RTy.vecTy t) = needs_finalizer t ∧
    needs_finalizer (RTy.vecTy u8Ty) = false ∧
    needs_finalizer (RTy.vecTy hasDropTy) = true ∧
    needs_finalizer (RTy.vecTy (RTy.vecTy hasDropTy)) = true ∧
    needs_finalizer (RTy.vecTy (RTy.boxTy hasDropTy)) = true := by
  refine ⟨?_, by decide, by decide, by decide, by decide⟩
  simp only [needs_finalizer, needs_drop, manageable_contents, Bool.true_and]
  cases hm : manageable_contents t
  · simp [not_manageable_needs_drop t hm]
  · simp

/-- C3: on the code as written the deferred-initialization upgrade
`assume_init` registers a finalizer even for content types that need none,
and the callback it registers drops `ManuallyDrop<MaybeUninit<T>>`, whose
drop glue is empty, so it never runs the contained value's destructor: for
`T = u8` a registration appears although `needs_finalizer u8 = false`, and
for `T = HasDrop` the registered drop type has no drop glue although the
content type does. -/
theorem assume_init_registration_bug :
    (GcBox.assumeInitSt (GcBox.newFromLayoutSt u8Ty)).regs
      = [RTy.maybeUninitTy u8Ty] ∧
    needs_finalizer u8Ty = false ∧
    (GcBox.assumeInitSt (GcBox.newFromLayoutSt hasDropTy)).regs
      = [RTy.maybeUninitTy hasDropTy] ∧
    needs_drop (RTy.maybeUninitTy hasDropTy) = false ∧
    needs_drop hasDropTy = true := by
  decide

/-- One public operation keeps the number of live registrations at or
below one: cloning changes nothing, the upgrade installs through the
replacing backend call. -/
theorem applyOp_reg_le (st : GcBoxSt) (h : st.regs.length ≤ 1) (op : PubOp) :
    (applyOp st op).regs.length ≤ 1 := by
  cases op with
  | cloneH => exact h
  | assumeInitOp =>
      cases hc : st.contentTy <;>
        simp [applyOp, GcBox.assumeInitSt, hc, backend_register_finalizer, h]

/-- A sequence of public operations keeps the number of live registrations
at or below one. -/
theorem applyOps_reg_le (ops : List PubOp) :
    ∀ st : GcBoxSt, st.regs.length ≤ 1 →
      (applyOps st ops).regs.length ≤ 1 := by
  induction ops with
  | nil => intro st h; exact h
  | cons op ops ih =>
      intro st h
      exact ih (applyOp st op) (applyOp_reg_le st h op)

/-- C4: starting from either construction path, no sequence of public
operations ever leaves the box with two live finalizer registrations. -/
theorem at_most_one_registration (t : RTy) (ops : List PubOp) :
    (applyOps (GcBox.newSt t) ops).regs.length ≤ 1 ∧
    (applyOps (GcBox.newFromLayoutSt t) ops).regs.length ≤ 1 := by
  constructor
  · apply applyOps_reg_le
    cases h : gcbox_new_registers t <;>
      simp [GcBox.newSt, h, backend_register_finalizer]
  · apply applyOps_reg_le
    simp [GcBox.newFromLayoutSt]

/-- C5: downcasting an opaque handle to the referent's concrete type
succeeds with a narrowed handle at the same address; downcasting to any
other type fails with the original opaque handle, unchanged. -/
theorem downcast_spec (g : GcDynPtr) (t : RTy) :
    (g.tag = t → Gc.downcast g t = Except.ok { addr := g.addr }) ∧
    (g.tag ≠ t → Gc.downcast g t = Except.error g) := by
  constructor
  · intro h
    simp [Gc.downcast, h]
  · intro h
    simp [Gc.downcast, h]

/-- C5 witness: both branches of `downcast_spec` at concrete handles. -/
theorem downcast_spec_witness :
    Gc.downcast { addr := 5, tag := u8Ty } u8Ty = Except.ok { addr := 5 } ∧
    Gc.downcast { addr := 5, tag := u8Ty } hasDropTy
      = Except.error { addr := 5, tag := u8Ty } :=
  ⟨(downcast_spec { addr := 5, tag := u8Ty } u8Ty).1 rfl,
   (downcast_spec { addr := 5, tag := u8Ty } hasDropTy).2 (by decide)⟩

/-- C6: `Gc::new_from_layout` panics exactly when the requested layout is
smaller or less aligned than the natural layout of the type; otherwise it
returns an uninitialized-storage handle without panicking. -/
theorem new_from_layout_panics_iff (tl l : RLayout) (base : Nat) :
    (panicked (Gc.new_from_layout tl l base) = true ↔
      (l.size < tl.size ∨ l.align < tl.align)) ∧
    ((∃ a : Nat, Gc.new_from_layout tl l base = Except.ok a) ↔
      ¬(l.size < tl.size ∨ l.align < tl.align)) := by
  by_cases h : l.size < tl.size ∨ l.align < tl.align
  · constructor
    · simp [Gc.new_from_layout, panicked, h]
    · simp [Gc.new_from_layout, h]
  · constructor
    · simp [Gc.new_from_layout, panicked, h]
    · exact ⟨fun _ => h, fun _ => ⟨GcBox.new_from_layout_addr base, by
        simp [Gc.new_from_layout, h]⟩⟩

/-- C7 counterexample: the Allocator-trait conservative path does not call
the uncollectable backend entry point; it calls `GC_malloc`, whose blocks
the collector reclaims automatically. -/
theorem allocator_conservative_not_uncollectable :
    (Allocator.alloc_conservative { size := 8, align := 8 }).1
      ≠ BackendAllocFn.gcMallocUncollectable ∧
    auto_reclaimed (Allocator.alloc_conservative { size := 8, align := 8 }).1
      = true := by
  decide

/-- C7 amended: conservative requests through the global-allocator interface
are forwarded to the uncollectable entry point, whose blocks are never
automatically reclaimed; through the Allocator-trait interface they are
forwarded to the default collectable entry point instead. -/
theorem conservative_alloc_routing (l : RLayout) :
    (GlobalAlloc.alloc_conservative l).1
      = BackendAllocFn.gcMallocUncollectable ∧
    auto_reclaimed (GlobalAlloc.alloc_conservative l).1 = false ∧
    (Allocator.alloc_conservative l).1 = BackendAllocFn.gcMalloc := by
  exact ⟨rfl, rfl, rfl⟩

/-- C8: the raw round-trip `from_raw (into_raw p)` is pointer-equal to `p`. -/
theorem from_raw_into_raw (g : GcPtr) :
    Gc.ptr_eq g (Gc.from_raw (Gc.into_raw g)) = true := by
  simp [Gc.ptr_eq, Gc.from_raw, Gc.into_raw]

/-- C9: copying a handle is pointer-equal to the original and performs no
work on the referent's box, so its registration state is unchanged. -/
theorem clone_frame (g : GcPtr) (st : GcBoxSt) :
    Gc.ptr_eq g (Gc.clone g) = true ∧
    applyOp st PubOp.cloneH = st ∧
    (applyOp st PubOp.cloneH).regs = st.regs := by
  exact ⟨by simp [Gc.ptr_eq, Gc.clone], rfl, rfl⟩

/-- C10: on the accepted path, the handle returned by the explicit-layout
constructor points one machine word past the allocated block base, so the
storage usable through it is one word smaller than the layout requested. -/
theorem new_from_layout_offset (tl l : RLayout) (base : Nat)
    (h : ¬(l.size < tl.size ∨ l.align < tl.align)) :
    Gc.new_from_layout tl l base = Except.ok (base + machineWordBytes) ∧
    GcBox.new_from_layout_addr base - base = machineWordBytes ∧
    base + l.size - GcBox.new_from_layout_addr base
      = l.size - machineWordBytes := by
  refine ⟨by simp [Gc.new_from_layout, GcBox.new_from_layout_addr, h], ?_, ?_⟩
  · simp [GcBox.new_from_layout_addr]
  · simp only [GcBox.new_from_layout_addr]
    omega

/-- C10 witness: the offset facts at a concrete layout and base. -/
theorem new_from_layout_offset_witness :
    Gc.new_from_layout { size := 8, align := 8 } { size := 24, align := 8 } 100
      = Except.ok (100 + machineWordBytes) ∧
    GcBox.new_from_layout_addr 100 - 100 = machineWordBytes ∧
    100 + 24 - GcBox.new_from_layout_addr 100 = 24 - machineWordBytes :=
  new_from_layout_offset { size := 8, align := 8 } { size := 24, align := 8 }
    100 (by decide)
